import Mathlib

/-!
Verification development for the Farcaster posting agent
(`interfaces/farcaster_post.py`).

The Python source is shallowly embedded: JSON documents become an inductive
`Json` value type, the history file becomes an explicit file-state type,
stateful methods of `CastHistoryManager` become state-passing functions, and
every external, nondeterministic or fallible collaborator (the LLM calls made
through `handle_message`, the image pipeline, the HTTP layer of
`FarcasterAPI`, the random number generator, the wall clock) is supplied as an
explicit oracle argument.  Python exceptions are modelled with `Except` /
`Option`: a `.error` / `none` outcome at a call site stands for the call
raising, and the embedding of each `try`/`except` block routes those outcomes
exactly where the corresponding Python handler would.
-/

/-- JSON values, as produced by Python's `json` module.  Numbers are modelled
as integers (every number the agent itself writes into the history file is a
string, so no claim depends on float behaviour); objects are ordered key/value
lists, matching the insertion order of Python dicts. -/
inductive Json where
  | null
  | bool (b : Bool)
  | num (n : Int)
  | str (s : String)
  | arr (xs : List Json)
  | obj (kvs : List (String × Json))

/-- Association lookup in an (ordered) Python dict, i.e. `d.get(k)` /
`d[k]` returning `none` where Python would return `None` resp. raise
`KeyError`. -/
def lookupJ : List (String × Json) → String → Option Json
  | [], _ => none
  | (k, v) :: rest, key => if k == key then some v else lookupJ rest key

/-- Subscripting a JSON value with a string key: `j[k]`.  `none` models the
`KeyError`/`TypeError` Python raises when `j` is not a dict or lacks the
key. -/
def jget : Json → String → Option Json
  | .obj kvs, key => lookupJ kvs key
  | _, _ => none

/-- Python `d[k] = v` on an ordered dict: replace in place if the key exists,
else append at the end. -/
def dictInsert (kvs : List (String × Json)) (k : String) (v : Json) :
    List (String × Json) :=
  if kvs.any (fun p => p.1 == k) then
    kvs.map (fun p => if p.1 == k then (k, v) else p)
  else kvs ++ [(k, v)]

/-- Python `d.update(new)`: insert the new bindings left to right. -/
def dictUpdate (kvs new : List (String × Json)) : List (String × Json) :=
  new.foldl (fun acc p => dictInsert acc p.1 p.2) kvs

/-- Embed an optional string the way Python serialises it (`None` ↦ JSON
null). -/
def optJson : Option String → Json
  | none => Json.null
  | some s => Json.str s

/-- Python truthiness of a JSON-decoded value (`if x:`). -/
def jTruthy : Json → Bool
  | .null => false
  | .bool b => b
  | .num n => n != 0
  | .str s => s != ""
  | .arr xs => !xs.isEmpty
  | .obj kvs => !kvs.isEmpty

/-- `cast.replace('\x22', '')` from `generate_cast` (line 266): removing every
occurrence of the double-quote character is exactly filtering it out of the
character sequence. -/
def stripQuotes (s : String) : String :=
  String.mk (s.data.filter (fun c => c != '"'))

/-- State of the history file on disk, as observed by
`CastHistoryManager.load_history`: the file may be absent
(`os.path.exists` is false), present but with bytes that are not valid
UTF-8 (the file is opened with `encoding='utf-8'`, so the read inside
`json.load` raises `UnicodeDecodeError`), present and decodable but not
parseable as JSON (`json.load` raises `JSONDecodeError`), or present with
JSON content `j`. -/
inductive HFile where
  | missing
  | undecodable
  | malformed
  | content (j : Json)

/-- `CastHistoryManager.load_history` (lines 146-154): a missing file yields
`[]`; a JSON parse failure is caught by `except json.JSONDecodeError`,
logged, and yields `[]`; otherwise the parsed JSON document is returned
as-is.  A file whose bytes do not decode as UTF-8 instead raises
`UnicodeDecodeError` — a `ValueError` that is not a `JSONDecodeError`
subclass — which the `except` clause does not catch, so the exception
propagates to the caller: the `.error` result. -/
def load_history : HFile → Except Unit Json
  | .missing => Except.ok (Json.arr [])
  | .undecodable => Except.error ()
  | .malformed => Except.ok (Json.arr [])
  | .content j => Except.ok j

/-- In-memory state of a `CastHistoryManager` together with the backing
file. -/
structure CastHistoryManager where
  history : List Json
  file : HFile

/-- The history entry built by `CastHistoryManager.add_cast` (lines 156-164):
`{'timestamp': ..., 'cast': cast}` then `entry.update(metadata)` when
`metadata` is truthy (neither `None` nor empty).  The
`json.loads(json.dumps(entry))` round trip on line 164 is the identity on the
JSON values modelled here. -/
def mkEntry (ts : String) (cast : Json) (md : Option (List (String × Json))) :
    Json :=
  let base := [("timestamp", Json.str ts), ("cast", cast)]
  Json.obj (match md with
    | none => base
    | some kvs => if kvs.isEmpty then base else dictUpdate base kvs)

/-- `CastHistoryManager.add_cast` followed by its unconditional
`save_history` (lines 156-170): append the entry to the in-memory list and
rewrite the whole file with the serialised list.  `ts` is the
`datetime.now().isoformat()` timestamp, supplied by the caller as an
oracle. -/
def CastHistoryManager.add_cast (m : CastHistoryManager) (ts : String)
    (cast : Json) (md : Option (List (String × Json))) : CastHistoryManager :=
  let h := m.history ++ [mkEntry ts cast md]
  { history := h, file := HFile.content (Json.arr h) }

/-- Python's `l[-n:]` slice for `n ≥ 0`: note that `l[-0:]` is `l[0:]`, the
whole list, while for `n ≥ 1` it is the last `min n (length l)` elements. -/
def pySliceLast (l : List α) (n : Nat) : List α :=
  if n = 0 then l else l.drop (l.length - n)

/-- The extraction `entry['cast']['cast']` from `get_recent_casts`
(line 173); `none` models the exception raised on an entry without that
shape. -/
def castText (e : Json) : Option Json :=
  match jget e "cast" with
  | some inner => jget inner "cast"
  | none => none

/-- Option-valued traversal of a list: the embedding of a Python list
comprehension whose body may raise — it raises (is `none`) exactly when some
element raises, and otherwise returns all the values in order. -/
def optMapM (f : α → Option β) : List α → Option (List β)
  | [] => some []
  | a :: l =>
    match f a with
    | none => none
    | some b =>
      match optMapM f l with
      | none => none
      | some bs => some (b :: bs)

/-- `CastHistoryManager.get_recent_casts` (lines 172-173), as a pure reading
of the history list: `[entry['cast']['cast'] for entry in self.history[-n:]]`. -/
def get_recent_casts (history : List Json) (n : Nat) : Option (List Json) :=
  optMapM castText (pySliceLast history n)

/-- The same method in state-passing form: it returns its result together
with the (unchanged) manager state. -/
def CastHistoryManager.get_recent_casts (m : CastHistoryManager) (n : Nat) :
    Option (List Json) × CastHistoryManager :=
  (optMapM castText (pySliceLast m.history n), m)

/-- One `add_cast` invocation's arguments: the timestamp the wall clock
supplies, the `cast` payload, and the optional `metadata` dict. -/
structure AddInput where
  ts : String
  cast : Json
  md : Option (List (String × Json))

/-- The entry `add_cast` constructs from one input. -/
def mkEntryOf (a : AddInput) : Json := mkEntry a.ts a.cast a.md

/-- Appending a list of entries one by one through `add_cast`. -/
def addAll (m : CastHistoryManager) (ins : List AddInput) : CastHistoryManager :=
  ins.foldl (fun acc a => acc.add_cast a.ts a.cast a.md) m

/-- The sections of `config/prompts.yaml` that `generate_cast` draws from,
via the `PromptConfig` accessors (`get_basic_settings`,
`get_interaction_styles`, `get_cast_ideas`). -/
structure PromptConfig where
  basic_settings : List String
  interaction_styles : List String
  cast_ideas : List String

/-- `random.sample(l, 2)` (lines 236-237): the RNG picks two positions of the
population; the positions are in range and distinct exactly when the
population has at least two elements, and otherwise the call raises
`ValueError` (`.error`).  The chosen positions `i`, `j` are the oracle
input. -/
def randSample2 (l : List String) (i j : Nat) : Except Unit (String × String) :=
  if h : i < l.length ∧ j < l.length ∧ i ≠ j then
    Except.ok (l.get ⟨i, h.1⟩, l.get ⟨j, h.2.1⟩)
  else Except.error ()

/-- `random.choice(l)` (line 246): the RNG picks a position of `l`; an empty
`l` makes the call raise (`.error`). -/
def randChoice (l : List String) (i : Nat) : Except Unit String :=
  if h : i < l.length then Except.ok (l.get ⟨i, h⟩) else Except.error ()

/-- The nondeterministic inputs of one `generate_cast` invocation: the RNG
draws, and the outcomes of the external calls (`handle_message` twice, and
the image pipeline).  An `.error` outcome stands for the call raising. -/
structure GenOracle where
  basicIdx1 : Nat
  basicIdx2 : Nat
  styleIdx1 : Nat
  styleIdx2 : Nat
  ideaIdx : Nat
  ideasResult : Except Unit (Option String)
  castResult : Except Unit (Option String)
  tryImage : Bool
  imageStep : Except Unit (String × Option String)

/-- The working record `cast_data` of `generate_cast`: the `metadata` dict
(created first) and the `cast` text field added on line 267. -/
structure CastData where
  metadata : List (String × Json)
  cast : Option String

/-- `cast_data` as the JSON value `add_cast` persists: the `metadata` key was
inserted at construction (line 229), `cast` afterwards (line 267), so that is
their dict order. -/
def castDataToJson (cd : CastData) : Json :=
  Json.obj (("metadata", Json.obj cd.metadata) ::
    (match cd.cast with
     | some c => [("cast", Json.str c)]
     | none => []))

/-- The guarded body of `generate_cast` up to the quote-stripped final text
(lines 232-267), i.e. everything before the image step.  Each `.error ()`
return marks a point where the Python body raises and control passes to the
`except` clause on line 282.  The prompt strings assembled on lines 243-258
are consumed only by `handle_message`, whose outcome the oracle already
provides, so they are not materialised here; the word-limit draw on line 210
only enters those strings.  Returns the accumulated `metadata` dict and the
cleaned cast text. -/
def genCore (cfg : PromptConfig) (history : List Json) (o : GenOracle) :
    Except Unit (List (String × Json) × String) :=
  match get_recent_casts history 6 with
  | none => Except.error ()
  | some _past_casts =>
    match randSample2 cfg.basic_settings o.basicIdx1 o.basicIdx2 with
    | .error _ => Except.error ()
    | .ok (b1, b2) =>
      match randSample2 cfg.interaction_styles o.styleIdx1 o.styleIdx2 with
      | .error _ => Except.error ()
      | .ok (s1, s2) =>
        let md0 := dictUpdate []
          [("basic_options", Json.arr [Json.str b1, Json.str b2]),
           ("style_options", Json.arr [Json.str s1, Json.str s2])]
        match randChoice cfg.cast_ideas o.ideaIdx with
        | .error _ => Except.error ()
        | .ok idea =>
          let md1 := dictInsert md0 "ideas_instruction" (Json.str idea)
          match o.ideasResult with
          | .error _ => Except.error ()
          | .ok ideas =>
            let md2 := dictInsert md1 "ideas" (optJson ideas)
            match o.castResult with
            | .error _ => Except.error ()
            | .ok none => Except.error ()
            | .ok (some rawCast) =>
              if rawCast = "" then Except.error ()
              else Except.ok (md2, stripQuotes rawCast)

/-- `FarcasterAgent.generate_cast` (lines 227-285).  On any exception in the
guarded body the `except` clause logs and the function returns
`(None, None, None)`.  Otherwise, with probability 0.3 (`o.tryImage`), the
image step runs inside its own `try`: if it raises, the cycle continues with
no image and untouched metadata; if it succeeds, the image prompt and URL are
recorded.  The `.ok none` in `o.castResult` models `handle_message` returning
`None`, which (like an empty string) fails the `if not cast` check on
line 262. -/
def generate_cast (cfg : PromptConfig) (history : List Json) (o : GenOracle) :
    Option String × Option String × Option CastData :=
  match genCore cfg history o with
  | .error _ => (none, none, none)
  | .ok (md, cast) =>
    if o.tryImage then
      match o.imageStep with
      | .error _ => (some cast, none, some { metadata := md, cast := some cast })
      | .ok (iprompt, url) =>
        (some cast, url,
         some { metadata := dictInsert (dictInsert md "image_prompt" (Json.str iprompt))
                  "image_url" (optJson url),
                cast := some cast })
    else (some cast, none, some { metadata := md, cast := some cast })

/-- Outcome of the `requests.post` call inside `FarcasterAPI.post_cast`: a
transport-level exception, or an HTTP response with a status code and a body
(`none` for a body that `response.json()` cannot parse). -/
inductive HttpOutcome where
  | exn
  | response (status : Nat) (body : Option Json)

/-- `FarcasterAPI.post_cast` (lines 50-80).  On status 200 it returns
`result.get('cast', \x7b\x7d).get('hash')`; a missing `'hash'` key yields
`None`, a non-dict `result` or `'cast'` value makes `.get` raise, which the
`except` catches, returning `None`; any non-200 status logs and returns
`None`; a transport exception is caught, returning `None`.  Totality of this
function models that the method never raises to its caller. -/
def post_cast (o : HttpOutcome) : Option Json :=
  match o with
  | .exn => none
  | .response status body =>
    if status = 200 then
      match body with
      | some (.obj kvs) =>
        match (lookupJ kvs "cast").getD (Json.obj []) with
        | .obj ckvs => lookupJ ckvs "hash"
        | _ => none
      | _ => none
    else none

/-- `random_interval` (lines 333-335): `random.uniform(3600, 7200)`, i.e.
`3600 + (7200 - 3600) * u` for a uniform draw `u ∈ [0, 1]` supplied by the
RNG oracle. -/
def random_interval (u : Rat) : Rat := 3600 + (7200 - 3600) * u

/-- The externally observable actions of one cycle of `FarcasterAgent._run`,
in the order the loop body performs them. -/
inductive Effect where
  | publish (text : String) (image : Option String)
  | notifyTg (message : String)
  | persist (data : Json)
  | logDryRun (text : String)

/-- Whether an effect is the publishing call (`farcaster_api.post_cast`). -/
def isPublish : Effect → Bool
  | .publish _ _ => true
  | _ => false

/-- Whether an effect is the history append (`history_manager.add_cast`). -/
def isPersist : Effect → Bool
  | .persist _ => true
  | _ => false

/-- The nondeterministic inputs of one `_run` loop iteration: the
`generate_cast` oracle, the timestamp `add_cast` will record, the HTTP
outcome of the publish call, whether a `'telegram'` interface is registered,
whether `send_to_interface` completes without raising, and the RNG draw for
`random_interval`. -/
structure CycleOracle where
  gen : GenOracle
  timestamp : String
  http : HttpOutcome
  hasTelegram : Bool
  sendOk : Bool
  u : Rat

/-- Body of one `FarcasterAgent._run` loop iteration after
`generate_cast` has returned (lines 297-326), given the unpacked triple
`(cast, image_url, cast_data)`.  A falsy `cast` (empty string) waits 10
seconds.  Otherwise, when `DRYRUN` is off, the publish call runs first; a
truthy `cast_hash` is inserted into the metadata and, when a telegram
interface is registered, the notification `"Just posted a cast: " +
cast_hash` is sent — if `cast_hash` is not a string that concatenation
raises `TypeError`, and `send_to_interface` may itself raise; either
exception is caught by the `except` on line 328, which sleeps 10 seconds,
so `add_cast` never runs in those cases.  Otherwise `add_cast` persists
`cast_data` and the wait is `random_interval()`. -/
def runCycleActive (m : CastHistoryManager) (o : CycleOracle) (dryrun : Bool)
    (cast : String) (image_url : Option String) (cast_data : CastData) :
    CastHistoryManager × List Effect × Rat :=
  if cast = "" then (m, [], 10)
  else if dryrun then
    (m.add_cast o.timestamp (castDataToJson cast_data) none,
     [Effect.logDryRun cast, Effect.persist (castDataToJson cast_data)],
     random_interval o.u)
  else
    match post_cast o.http with
    | some h =>
      if jTruthy h then
        let cd := { cast_data with
                    metadata := dictInsert cast_data.metadata "cast_hash" h }
        if o.hasTelegram then
          match h with
          | .str s =>
            if o.sendOk then
              (m.add_cast o.timestamp (castDataToJson cd) none,
               [Effect.publish cast image_url,
                Effect.notifyTg ("Just posted a cast: " ++ s),
                Effect.persist (castDataToJson cd)],
               random_interval o.u)
            else (m, [Effect.publish cast image_url], 10)
          | _ => (m, [Effect.publish cast image_url], 10)
        else
          (m.add_cast o.timestamp (castDataToJson cd) none,
           [Effect.publish cast image_url, Effect.persist (castDataToJson cd)],
           random_interval o.u)
      else
        (m.add_cast o.timestamp (castDataToJson cast_data) none,
         [Effect.publish cast image_url,
          Effect.persist (castDataToJson cast_data)],
         random_interval o.u)
    | none =>
      (m.add_cast o.timestamp (castDataToJson cast_data) none,
       [Effect.publish cast image_url,
        Effect.persist (castDataToJson cast_data)],
       random_interval o.u)

/-- One iteration of the `while True` body of `FarcasterAgent._run`
(lines 293-331), returning the new manager state, the externally observable
effects performed in order, and the `wait_time` passed to `asyncio.sleep`.
The `if cast:` truthiness test and everything after it lives in
`runCycleActive`; a `None` cast (generation failure) waits 10 seconds.  The
fall-through arm for a `(some cast, _, none)` triple is unreachable, since
`generate_cast` always returns text and working record together. -/
def runCycle (cfg : PromptConfig) (m : CastHistoryManager) (o : CycleOracle)
    (dryrun : Bool) : CastHistoryManager × List Effect × Rat :=
  match generate_cast cfg m.history o.gen with
  | (some cast, image_url, some cast_data) =>
    runCycleActive m o dryrun cast image_url cast_data
  | _ => (m, [], 10)

/-- The notification step completes without raising: vacuous unless the
publish call returned a truthy hash and a telegram interface is registered,
in which case the hash must be a string (so the `'Just posted a cast: ' +
cast_hash` concatenation succeeds) and `send_to_interface` must not raise. -/
def notifyOk (o : CycleOracle) : Prop :=
  ∀ h, post_cast o.http = some h → jTruthy h = true → o.hasTelegram = true →
    ∃ s, h = Json.str s ∧ o.sendOk = true

/-- A well-formed persisted history entry, as `add_cast` writes them. -/
def entryHello : Json :=
  Json.obj [("timestamp", Json.str "2026-01-01T00:00:00"),
            ("cast", Json.obj [("metadata", Json.obj []),
                               ("cast", Json.str "hello")])]

/-- A small concrete prompt configuration. -/
def cfgEx : PromptConfig :=
  { basic_settings := ["a", "b"],
    interaction_styles := ["x", "y"],
    cast_ideas := ["idea"] }

/-- A concrete `generate_cast` oracle on which every step succeeds; the raw
LLM text contains embedded double quotes. -/
def genEx : GenOracle :=
  { basicIdx1 := 0, basicIdx2 := 1, styleIdx1 := 0, styleIdx2 := 1,
    ideaIdx := 0,
    ideasResult := Except.ok (some "some ideas"),
    castResult := Except.ok (some "hi \"there\""),
    tryImage := false,
    imageStep := Except.error () }

/-- The metadata dict `generate_cast` accumulates on the `genEx` run. -/
def mdEx : List (String × Json) :=
  [("basic_options", Json.arr [Json.str "a", Json.str "b"]),
   ("style_options", Json.arr [Json.str "x", Json.str "y"]),
   ("ideas_instruction", Json.str "idea"),
   ("ideas", Json.str "some ideas")]

/-- The working record produced by `generate_cast` on the `genEx` run. -/
def cdEx : CastData := { metadata := mdEx, cast := some "hi there" }

/-- A manager over an empty history with no file on disk. -/
def chmEx : CastHistoryManager := { history := [], file := HFile.missing }

/-- Cycle oracle: generation succeeds, the publish call hits a transport
exception (so `post_cast` returns `None`). -/
def coEx : CycleOracle :=
  { gen := genEx, timestamp := "t0", http := HttpOutcome.exn,
    hasTelegram := false, sendOk := true, u := 0 }

/-- Cycle oracle: generation succeeds, the publish call gets an HTTP 500
(so `post_cast` returns `None`); the RNG draw for the wait interval is 0. -/
def coPost : CycleOracle :=
  { gen := genEx, timestamp := "t0", http := HttpOutcome.response 500 none,
    hasTelegram := false, sendOk := true, u := 0 }

/-- A `generate_cast` oracle whose image step is attempted and raises. -/
def genImgFail : GenOracle := { genEx with tryImage := true }

/-- Cycle oracle built on `genImgFail`. -/
def coImg : CycleOracle := { coEx with gen := genImgFail }

/-- Helper: stripping quotes removes every double-quote character. -/
theorem stripQuotes_no_quote (s : String) : '"' ∉ (stripQuotes s).data := by
  intro h
  have h' : '"' ∈ s.data.filter (fun c => c != '"') := h
  rw [List.mem_filter] at h'
  simp at h'

/-- Helper: a successful `optMapM` traversal preserves length. -/
theorem optMapM_length {α β : Type} (f : α → Option β) :
    ∀ (l : List α) (ts : List β), optMapM f l = some ts → ts.length = l.length := by
  intro l
  induction l with
  | nil => intro ts h; simp [optMapM] at h; subst h; rfl
  | cons a l ih =>
    intro ts h
    simp only [optMapM] at h
    cases hf : f a with
    | none => rw [hf] at h; simp at h
    | some b =>
      rw [hf] at h
      cases hm : optMapM f l with
      | none => rw [hm] at h; simp at h
      | some bs =>
        rw [hm] at h
        simp at h
        subst h
        simp [ih bs hm]

/-- Helper: a successful `optMapM` traversal commutes with `drop`. -/
theorem optMapM_drop {α β : Type} (f : α → Option β) :
    ∀ (l : List α) (ts : List β) (k : Nat), optMapM f l = some ts →
      optMapM f (l.drop k) = some (ts.drop k) := by
  intro l
  induction l with
  | nil =>
    intro ts k h
    simp [optMapM] at h
    subst h
    simp [optMapM]
  | cons a l ih =>
    intro ts k h
    cases k with
    | zero => simpa using h
    | succ k =>
      simp only [optMapM] at h
      cases hf : f a with
      | none => rw [hf] at h; simp at h
      | some b =>
        rw [hf] at h
        cases hm : optMapM f l with
        | none => rw [hm] at h; simp at h
        | some bs =>
          rw [hm] at h
          simp at h
          subst h
          simpa using ih bs k hm

/-- Helper: `addAll` appends exactly the constructed entries, in order. -/
theorem addAll_history : ∀ (ins : List AddInput) (m : CastHistoryManager),
    (addAll m ins).history = m.history ++ ins.map mkEntryOf := by
  intro ins
  induction ins with
  | nil => intro m; simp [addAll]
  | cons a ins ih =>
    intro m
    have hstep : addAll m (a :: ins) = addAll (m.add_cast a.ts a.cast a.md) ins := rfl
    rw [hstep, ih]
    simp [CastHistoryManager.add_cast, mkEntryOf]

/-- Helper: after at least one `add_cast`, the file holds exactly the
serialised in-memory history. -/
theorem addAll_file : ∀ (ins : List AddInput) (m : CastHistoryManager),
    ins ≠ [] →
    (addAll m ins).file = HFile.content (Json.arr (addAll m ins).history) := by
  intro ins
  induction ins with
  | nil => intro m h; exact absurd rfl h
  | cons a ins ih =>
    intro m _
    by_cases hi : ins = []
    · subst hi
      simp [addAll, CastHistoryManager.add_cast]
    · have hstep : addAll m (a :: ins) = addAll (m.add_cast a.ts a.cast a.md) ins := rfl
      rw [hstep]
      exact ih _ hi

/-- C6 (amended): loading the history store when the history file is
missing, or when its contents decode as UTF-8 text but fail to parse as
JSON, returns the empty sequence without raising; a file whose bytes are not
valid UTF-8, however, makes the load raise (`UnicodeDecodeError` is not
caught). -/
theorem load_history_missing_or_malformed :
    load_history HFile.missing = Except.ok (Json.arr []) ∧
    load_history HFile.malformed = Except.ok (Json.arr []) :=
  ⟨rfl, rfl⟩

/-- C6 counterexample: a present history file whose contents fail to parse
because its bytes are not valid UTF-8: `json.load`'s read raises
`UnicodeDecodeError`, the `except json.JSONDecodeError` clause does not
catch it, and the load raises instead of returning an empty sequence. -/
theorem load_history_undecodable_cex :
    load_history HFile.undecodable = Except.error () ∧
    load_history HFile.undecodable ≠ Except.ok (Json.arr []) :=
  ⟨rfl, fun h => Except.noConfusion h⟩

/-- C4: appending any `K` entries one by one via `add_cast` to an empty
history and then reloading from the persisted file via `load_history` yields
(without raising) exactly `K` entries, field-for-field equal to the entries
that were appended. -/
theorem append_then_reload_roundtrip (ins : List AddInput) :
    load_history (addAll { history := [], file := HFile.missing } ins).file =
      Except.ok (Json.arr (ins.map mkEntryOf)) ∧
    (ins.map mkEntryOf).length = ins.length := by
  constructor
  · by_cases h : ins = []
    · subst h; rfl
    · rw [addAll_file ins _ h, addAll_history]
      simp [load_history]
  · simp

/-- C3 (amended to `n ≥ 1`): on a well-formed history of length `L`,
`get_recent_casts n` returns exactly `min n L` texts — the text fields of
the last `n` entries in original oldest-first order — and leaves the manager
state unchanged.  (For `n = 0` the code returns the whole history instead;
see the counterexample.) -/
theorem get_recent_casts_spec (m : CastHistoryManager) (n : Nat)
    (ts : List Json) (hn : 1 ≤ n)
    (hw : optMapM castText m.history = some ts) :
    (m.get_recent_casts n).1 = some (ts.drop (m.history.length - n)) ∧
    (ts.drop (m.history.length - n)).length = min n m.history.length ∧
    (m.get_recent_casts n).2 = m := by
  have hlen := optMapM_length castText m.history ts hw
  have hslice : pySliceLast m.history n = m.history.drop (m.history.length - n) := by
    unfold pySliceLast
    rw [if_neg (by omega)]
  refine ⟨?_, ?_, rfl⟩
  · show optMapM castText (pySliceLast m.history n) = _
    rw [hslice]
    exact optMapM_drop castText m.history ts _ hw
  · simp only [List.length_drop, hlen]
    omega

/-- C3 counterexample: with `n = 0` on a history of length 1, Python's
`history[-0:]` slice is the whole list, so the call returns 1 text where the
claim demands `min 0 1 = 0` texts. -/
theorem get_recent_casts_zero_cex :
    ((CastHistoryManager.mk [entryHello] HFile.missing).get_recent_casts 0).1 =
      some [Json.str "hello"] ∧
    ((CastHistoryManager.mk [entryHello] HFile.missing).get_recent_casts 0).1 ≠
      some [] ∧
    min 0 (CastHistoryManager.mk [entryHello] HFile.missing).history.length = 0 := by
  refine ⟨rfl, ?_, rfl⟩
  intro h
  rw [show ((CastHistoryManager.mk [entryHello] HFile.missing).get_recent_casts 0).1 =
        some [Json.str "hello"] from rfl] at h
  simp at h

/-- C3 witness: the amended statement applied to a concrete one-entry
history with `n = 1`. -/
theorem get_recent_casts_spec_witness :
    ((CastHistoryManager.mk [entryHello] HFile.missing).get_recent_casts 1).1 =
      some ([Json.str "hello"].drop
        ((CastHistoryManager.mk [entryHello] HFile.missing).history.length - 1)) :=
  (get_recent_casts_spec (CastHistoryManager.mk [entryHello] HFile.missing) 1
    [Json.str "hello"] (by decide) (by rfl)).1

/-- Helper: on a duplicate-free population, the two values sampled without
replacement are distinct. -/
theorem sample2_ne {l : List String} {i j : Nat} {x y : String}
    (hnd : l.Nodup) (h : randSample2 l i j = Except.ok (x, y)) : x ≠ y := by
  unfold randSample2 at h
  split at h
  · rename_i hc
    simp only [Except.ok.injEq, Prod.mk.injEq] at h
    obtain ⟨hx, hy⟩ := h
    subst hx
    subst hy
    intro hxy
    have hfin : (⟨i, hc.1⟩ : Fin l.length) = ⟨j, hc.2.1⟩ :=
      hnd.get_inj_iff.mp hxy
    exact hc.2.2 (by simpa using hfin)
  · simp at h

/-- C7 (amended): when the configured persona-trait and interaction-style
lists each contain no duplicate entries, the per-cycle
`random.sample(·, 2)` draws always yield two distinct values within each
pair.  (Length ≥ 2 alone does not suffice; see the counterexample.) -/
theorem sample_distinct_of_nodup (cfg : PromptConfig)
    (i1 j1 i2 j2 : Nat) (b1 b2 s1 s2 : String)
    (hb : cfg.basic_settings.Nodup) (hs : cfg.interaction_styles.Nodup)
    (h1 : randSample2 cfg.basic_settings i1 j1 = Except.ok (b1, b2))
    (h2 : randSample2 cfg.interaction_styles i2 j2 = Except.ok (s1, s2)) :
    b1 ≠ b2 ∧ s1 ≠ s2 :=
  ⟨sample2_ne hb h1, sample2_ne hs h2⟩

/-- C7 counterexample: the claim only requires the configured lists to have
length ≥ 2, but on the list `["a", "a"]` the without-replacement sample at
the (distinct, in-range) positions 0 and 1 returns the value pair
`("a", "a")`, whose two components are not distinct. -/
theorem sample_duplicate_values_cex :
    2 ≤ (["a", "a"] : List String).length ∧
    randSample2 ["a", "a"] 0 1 = Except.ok ("a", "a") ∧
    ¬ (("a" : String) ≠ "a") := by
  refine ⟨by decide, rfl, by decide⟩

/-- C7 witness: the amended statement applied to the concrete duplicate-free
configuration `cfgEx`. -/
theorem sample_distinct_of_nodup_witness :
    ("a" : String) ≠ "b" ∧ ("x" : String) ≠ "y" :=
  sample_distinct_of_nodup cfgEx 0 1 0 1 "a" "b" "x" "y"
    (by decide) (by decide) rfl rfl

/-- C9: `post_cast` never raises to its caller (it is a total function of
the HTTP outcome): it returns `None` on a transport exception and on every
non-200 status (after logging), and a post identifier is returned only for a
200 response. -/
theorem post_cast_no_raise_spec (o : HttpOutcome) :
    (o = HttpOutcome.exn → post_cast o = none) ∧
    (∀ s b, o = HttpOutcome.response s b → s ≠ 200 → post_cast o = none) ∧
    (∀ h, post_cast o = some h → ∃ b, o = HttpOutcome.response 200 b) := by
  refine ⟨?_, ?_, ?_⟩
  · rintro rfl
    rfl
  · rintro s b rfl hs
    simp [post_cast, hs]
  · intro h hp
    cases o with
    | exn => simp [post_cast] at hp
    | response s b =>
      by_cases hs : s = 200
      · subst hs
        exact ⟨b, rfl⟩
      · simp [post_cast, hs] at hp

/-- C9 witness: the specification applied to two concrete outcomes, a
transport exception and an HTTP 404. -/
theorem post_cast_no_raise_spec_witness :
    post_cast HttpOutcome.exn = none ∧
    post_cast (HttpOutcome.response 404 none) = none :=
  ⟨(post_cast_no_raise_spec HttpOutcome.exn).1 rfl,
   (post_cast_no_raise_spec (HttpOutcome.response 404 none)).2.1 404 none rfl
     (by decide)⟩

/-- C10: `generate_cast` never propagates an exception (every raise inside
the guarded body is routed to the `except` clause, which returns), and its
result is either exactly `(None, None, None)` or a fully populated triple
whose working record carries the same text — never a partially populated
result. -/
theorem generate_cast_total_shape (cfg : PromptConfig) (history : List Json)
    (o : GenOracle) :
    generate_cast cfg history o = (none, none, none) ∨
    ∃ c u cd, generate_cast cfg history o = (some c, u, some cd) ∧
      cd.cast = some c := by
  unfold generate_cast
  cases hgc : genCore cfg history o with
  | error e => exact Or.inl rfl
  | ok p =>
    obtain ⟨md, c⟩ := p
    right
    by_cases ht : o.tryImage = true
    · simp only [ht, if_true]
      cases him : o.imageStep with
      | error e => exact ⟨c, none, _, rfl, rfl⟩
      | ok pr =>
        obtain ⟨ip, url⟩ := pr
        exact ⟨c, url, _, rfl, rfl⟩
    · simp only [ht, if_false]
      exact ⟨c, none, _, rfl, rfl⟩



/-- Helper: the text produced by the guarded generation body is always the
quote-stripped LLM output, so it contains no double quote. -/
theorem genCore_no_quote (cfg : PromptConfig) (history : List Json)
    (o : GenOracle) (md : List (String × Json)) (c : String)
    (hgc : genCore cfg history o = Except.ok (md, c)) : '"' ∉ c.data := by
  unfold genCore at hgc
  repeat' split at hgc
  all_goals
    first
      | exact Except.noConfusion hgc
      | (simp only [Except.ok.injEq, Prod.mk.injEq] at hgc
         obtain ⟨h1, h2⟩ := hgc
         subst h2
         exact stripQuotes_no_quote _)

/-- Helper: a successful `generate_cast` returns a working record whose
`cast` field is exactly the returned text, and that text has no double
quote. -/
theorem generate_cast_success (cfg : PromptConfig) (history : List Json)
    (o : GenOracle) (c : String) (u : Option String) (cd : CastData)
    (hg : generate_cast cfg history o = (some c, u, some cd)) :
    cd.cast = some c ∧ '"' ∉ c.data := by
  unfold generate_cast at hg
  cases hgc : genCore cfg history o with
  | error e => rw [hgc] at hg; simp at hg
  | ok p =>
    obtain ⟨md, c0⟩ := p
    rw [hgc] at hg
    have hq := genCore_no_quote cfg history o md c0 hgc
    cases htb : o.tryImage with
    | true =>
      rw [htb] at hg
      cases him : o.imageStep with
      | error e =>
        rw [him] at hg
        have h1 : (some c0 : Option String) = some c := congrArg Prod.fst hg
        have h3 : (some (some c0) : Option (Option String)) = some cd.cast :=
          congrArg
            (fun (t : Option String × Option String × Option CastData) =>
              Option.map CastData.cast t.2.2) hg
        injection h1 with hc
        injection h3 with h3'
        subst hc
        exact ⟨h3'.symm, hq⟩
      | ok pr =>
        obtain ⟨ip, url⟩ := pr
        rw [him] at hg
        have h1 : (some c0 : Option String) = some c := congrArg Prod.fst hg
        have h3 : (some (some c0) : Option (Option String)) = some cd.cast :=
          congrArg
            (fun (t : Option String × Option String × Option CastData) =>
              Option.map CastData.cast t.2.2) hg
        injection h1 with hc
        injection h3 with h3'
        subst hc
        exact ⟨h3'.symm, hq⟩
    | false =>
      rw [htb] at hg
      have h1 : (some c0 : Option String) = some c := congrArg Prod.fst hg
      have h3 : (some (some c0) : Option (Option String)) = some cd.cast :=
        congrArg
          (fun (t : Option String × Option String × Option CastData) =>
            Option.map CastData.cast t.2.2) hg
      injection h1 with hc
      injection h3 with h3'
      subst hc
      exact ⟨h3'.symm, hq⟩

/-- Helper: reading back the `cast` text field of a serialised working
record. -/
theorem jget_castDataToJson (cd : CastData) (c : String) (h : cd.cast = some c) :
    jget (castDataToJson cd) "cast" = some (Json.str c) := by
  simp [castDataToJson, h, jget, lookupJ]

/-- Helper: the guarded generation body never looks at the image-related
oracle fields. -/
theorem genCore_tryImage_irrel (cfg : PromptConfig) (h : List Json)
    (o : GenOracle) (b : Bool) :
    genCore cfg h { o with tryImage := b } = genCore cfg h o := by
  cases o
  rfl

/-- Helper: when the image step is attempted and raises, `generate_cast`
behaves exactly as if the image step had not been attempted at all. -/
theorem generate_cast_image_error (cfg : PromptConfig) (h : List Json)
    (o : GenOracle) (ht : o.tryImage = true)
    (hf : o.imageStep = Except.error ()) :
    generate_cast cfg h o = generate_cast cfg h { o with tryImage := false } := by
  unfold generate_cast
  rw [genCore_tryImage_irrel cfg h o false]
  cases hgc : genCore cfg h o with
  | error e => rfl
  | ok p =>
    obtain ⟨md, c⟩ := p
    simp [ht, hf]

/-- Helper: once `generate_cast` has produced a full triple, the loop body
is the active branch applied to its components. -/
theorem runCycle_active (cfg : PromptConfig) (m : CastHistoryManager)
    (co : CycleOracle) (dryrun : Bool) (c : String) (u : Option String)
    (cd : CastData)
    (hgen : generate_cast cfg m.history co.gen = (some c, u, some cd)) :
    runCycle cfg m co dryrun = runCycleActive m co dryrun c u cd := by
  unfold runCycle
  rw [hgen]

/-- Helper: when the image step is attempted and raises, the returned image
URL is `None`. -/
theorem generate_cast_image_error_url (cfg : PromptConfig)
    (history : List Json) (o : GenOracle) (c : String) (u : Option String)
    (cd : CastData) (ht : o.tryImage = true)
    (hf : o.imageStep = Except.error ())
    (hg : generate_cast cfg history o = (some c, u, some cd)) : u = none := by
  unfold generate_cast at hg
  cases hgc : genCore cfg history o with
  | error e => rw [hgc] at hg; simp at hg
  | ok p =>
    obtain ⟨md, c0⟩ := p
    rw [hgc] at hg
    rw [ht] at hg
    rw [hf] at hg
    have h2 : (none : Option String) = u :=
      congrArg
        (fun (t : Option String × Option String × Option CastData) => t.2.1) hg
    exact h2.symm

/-- C1 (amended): when the publish call fails — `post_cast` returns `None`
for a non-empty generated cast, not in dry-run mode — the loop still
schedules the next cycle after the long randomized interval
`random_interval()` (a value in [3600, 7200], in particular not 10); the
10-second fallback is used only when generation itself fails or an exception
escapes the posting block. -/
theorem publish_failure_still_long_wait (cfg : PromptConfig)
    (m : CastHistoryManager) (co : CycleOracle) (c : String)
    (u : Option String) (cd : CastData)
    (hgen : generate_cast cfg m.history co.gen = (some c, u, some cd))
    (hc : c ≠ "") (hpost : post_cast co.http = none)
    (hu0 : 0 ≤ co.u) (hu1 : co.u ≤ 1) :
    (runCycle cfg m co false).2.2 = random_interval co.u ∧
    3600 ≤ (runCycle cfg m co false).2.2 ∧
    (runCycle cfg m co false).2.2 ≤ 7200 ∧
    (runCycle cfg m co false).2.2 ≠ 10 := by
  have hred := runCycle_active cfg m co false c u cd hgen
  have hwait : (runCycle cfg m co false).2.2 = random_interval co.u := by
    rw [hred]
    unfold runCycleActive
    rw [if_neg hc, hpost]
    rfl
  have h1 : 3600 ≤ random_interval co.u := by
    unfold random_interval
    nlinarith
  have h2 : random_interval co.u ≤ 7200 := by
    unfold random_interval
    nlinarith
  refine ⟨hwait, ?_, ?_, ?_⟩
  · rw [hwait]; exact h1
  · rw [hwait]; exact h2
  · rw [hwait]
    intro he
    rw [he] at h1
    norm_num at h1

/-- C1 counterexample: a concrete cycle in which generation succeeds with
the non-empty cast text, dry-run is off, and the publish call gets an HTTP
500 so `post_cast` returns `None` — yet the scheduled wait is 3600 seconds
(the randomized interval at draw 0), not the short 10-second fallback the
claim asserts. -/
theorem publish_failure_short_wait_cex :
    generate_cast cfgEx chmEx.history coPost.gen =
      (some "hi there", none, some cdEx) ∧
    post_cast coPost.http = none ∧
    (runCycle cfgEx chmEx coPost false).2.2 = 3600 ∧
    ((runCycle cfgEx chmEx coPost false).2.2 = 10 → False) := by
  refine ⟨rfl, rfl, ?_, ?_⟩
  · have h : (runCycle cfgEx chmEx coPost false).2.2 = random_interval 0 := rfl
    rw [h]
    unfold random_interval
    norm_num
  · intro he
    have h : (runCycle cfgEx chmEx coPost false).2.2 = random_interval 0 := rfl
    rw [h] at he
    unfold random_interval at he
    norm_num at he

/-- C1 witness: the amended statement applied to the concrete failing-post
cycle. -/
theorem publish_failure_still_long_wait_witness :
    (runCycle cfgEx chmEx coPost false).2.2 = random_interval coPost.u :=
  (publish_failure_still_long_wait cfgEx chmEx coPost "hi there" none cdEx rfl
    (by decide) rfl (by norm_num [coPost]) (by norm_num [coPost])).1

/-- C2 (amended): in every non-dry-run cycle with a non-empty final post
text, the publish attempt is the first effect of the cycle, and the history
append — when it occurs — comes strictly after it: the code publishes first
and persists afterwards, the reverse of the claimed order. -/
theorem publish_precedes_persist (cfg : PromptConfig)
    (m : CastHistoryManager) (co : CycleOracle) (c : String)
    (u : Option String) (cd : CastData)
    (hgen : generate_cast cfg m.history co.gen = (some c, u, some cd))
    (hc : c ≠ "") :
    ((runCycle cfg m co false).2.1).head? = some (Effect.publish c u) ∧
    (∀ k j, ((runCycle cfg m co false).2.1).get? k =
        some (Effect.persist j) → 1 ≤ k) := by
  have hred := runCycle_active cfg m co false c u cd hgen
  have hhead : ((runCycle cfg m co false).2.1).head? =
      some (Effect.publish c u) := by
    rw [hred]
    unfold runCycleActive
    rw [if_neg hc, if_neg (show ¬(false = true) by decide)]
    repeat' split
    all_goals rfl
  refine ⟨hhead, ?_⟩
  intro k j hk
  cases k with
  | zero =>
    have hh0 : ∀ (l : List Effect), l.get? 0 = l.head? := by
      intro l
      cases l <;> rfl
    rw [hh0] at hk
    rw [hhead] at hk
    exact absurd hk (by simp)
  | succ n => omega

/-- C2 counterexample: a concrete non-dry-run cycle whose effect sequence is
exactly [publish, persist]: the publish call (first position) precedes the
history append (second position), so the entry is not persisted before the
publish call is attempted. -/
theorem persist_before_publish_cex :
    ((runCycle cfgEx chmEx coEx false).2.1).map isPublish = [true, false] ∧
    ((runCycle cfgEx chmEx coEx false).2.1).map isPersist = [false, true] :=
  ⟨rfl, rfl⟩

/-- C2 witness: the amended statement applied to the concrete cycle. -/
theorem publish_precedes_persist_witness :
    ((runCycle cfgEx chmEx coEx false).2.1).head? =
      some (Effect.publish "hi there" none) :=
  (publish_precedes_persist cfgEx chmEx coEx "hi there" none cdEx rfl
    (by decide)).1

/-- C8: if the image-generation step raises during a cycle, the cycle does
not abort: the whole cycle behaves exactly as if no image pass had been
attempted, the image URL stays `None`, and — whenever the generated cast is
non-empty, dry-run is off, and the notification step does not itself raise —
the cycle still attempts the publish call with no image and still persists
the post to history. -/
theorem image_failure_cycle_proceeds (cfg : PromptConfig)
    (m : CastHistoryManager) (co : CycleOracle) (dr : Bool)
    (ht : co.gen.tryImage = true)
    (hf : co.gen.imageStep = Except.error ()) :
    runCycle cfg m co dr =
      runCycle cfg m { co with gen := { co.gen with tryImage := false } } dr ∧
    (∀ c u cd, generate_cast cfg m.history co.gen = (some c, u, some cd) →
      u = none) ∧
    (∀ c u cd, generate_cast cfg m.history co.gen = (some c, u, some cd) →
      c ≠ "" → dr = false → notifyOk co →
      Effect.publish c none ∈ (runCycle cfg m co dr).2.1 ∧
      ((runCycle cfg m co dr).2.1).any isPersist = true) := by
  refine ⟨?_, ?_, ?_⟩
  · have hgeq := generate_cast_image_error cfg m.history co.gen ht hf
    have hact : ∀ c0 u0 cd0,
        runCycleActive m co dr c0 u0 cd0 =
        runCycleActive m { co with gen := { co.gen with tryImage := false } }
          dr c0 u0 cd0 := by
      intro c0 u0 cd0
      cases co
      rfl
    unfold runCycle
    rw [show generate_cast cfg m.history
          ({ co with gen := { co.gen with tryImage := false } } :
            CycleOracle).gen =
        generate_cast cfg m.history co.gen from by rw [hgeq]]
    rcases hgc : generate_cast cfg m.history co.gen with ⟨c?, u?, cd?⟩
    cases c? with
    | none => rfl
    | some c0 =>
      cases cd? with
      | none => rfl
      | some cd0 => exact hact c0 u? cd0
  · intro c u cd hg
    exact generate_cast_image_error_url cfg m.history co.gen c u cd ht hf hg
  · intro c u cd hg hc hdr hno
    subst hdr
    have hu := generate_cast_image_error_url cfg m.history co.gen c u cd ht hf hg
    subst hu
    have hred := runCycle_active cfg m co false c none cd hg
    rw [hred]
    unfold runCycleActive
    rw [if_neg hc, if_neg (show ¬(false = true) by decide)]
    split
    · rename_i h heq
      split
      · rename_i htr
        split
        · rename_i htel
          split
          · rename_i s
            split
            · exact ⟨List.Mem.head _, rfl⟩
            · rename_i hsend
              obtain ⟨s', hs', hsend'⟩ := hno _ heq htr htel
              exact absurd hsend' hsend
          · rename_i hnostr
            obtain ⟨s', hs', hsend'⟩ := hno _ heq htr htel
            exact absurd hs' (hnostr s')
        · exact ⟨List.Mem.head _, rfl⟩
      · exact ⟨List.Mem.head _, rfl⟩
    · exact ⟨List.Mem.head _, rfl⟩

/-- C8 witness: the equality of the image-failing cycle and the no-image
cycle applied to concrete inputs. -/
theorem image_failure_cycle_proceeds_witness :
    runCycle cfgEx chmEx coImg false =
      runCycle cfgEx chmEx
        { coImg with gen := { coImg.gen with tryImage := false } } false :=
  (image_failure_cycle_proceeds cfgEx chmEx coImg false rfl rfl).1

/-- C5: in every cycle, any text handed to the publish call and any cast
text stored in the persisted working record is the quote-stripped generation
output: it contains no double-quote character. -/
theorem quotes_stripped_everywhere (cfg : PromptConfig)
    (m : CastHistoryManager) (co : CycleOracle) (dr : Bool) :
    (∀ t iu, Effect.publish t iu ∈ (runCycle cfg m co dr).2.1 →
      '"' ∉ t.data) ∧
    (∀ j, Effect.persist j ∈ (runCycle cfg m co dr).2.1 →
      ∃ t, jget j "cast" = some (Json.str t) ∧ '"' ∉ t.data) := by
  rcases hgen : generate_cast cfg m.history co.gen with ⟨c?, u, cd?⟩
  cases c? with
  | none =>
    have hred : runCycle cfg m co dr = (m, [], 10) := by
      unfold runCycle
      rw [hgen]
    rw [hred]
    exact ⟨fun t iu hm => absurd hm (by simp),
           fun j hm => absurd hm (by simp)⟩
  | some c =>
    cases cd? with
    | none =>
      have hred : runCycle cfg m co dr = (m, [], 10) := by
        unfold runCycle
        rw [hgen]
      rw [hred]
      exact ⟨fun t iu hm => absurd hm (by simp),
             fun j hm => absurd hm (by simp)⟩
    | some cd =>
      obtain ⟨hcd, hq⟩ := generate_cast_success cfg m.history co.gen c u cd hgen
      have hjc : jget (castDataToJson cd) "cast" = some (Json.str c) :=
        jget_castDataToJson cd c hcd
      have hred := runCycle_active cfg m co dr c u cd hgen
      constructor
      · intro t iu hm
        rw [hred] at hm
        unfold runCycleActive at hm
        repeat' split at hm
        all_goals simp at hm
        all_goals
          (obtain ⟨ht', hiu'⟩ := hm
           subst ht'
           exact hq)
      · intro j hm
        rw [hred] at hm
        unfold runCycleActive at hm
        repeat' split at hm
        all_goals simp at hm
        all_goals
          (subst hm
           exact ⟨c, hjc, hq⟩)

/-- C5 witness: on the concrete failing-post cycle the published text is the
quote-stripped generation output and carries no double quote. -/
theorem quotes_stripped_everywhere_witness :
    '"' ∉ ("hi there" : String).data :=
  (quotes_stripped_everywhere cfgEx chmEx coEx false).1 "hi there" none
    (List.Mem.head _)
